import Mathlib

/-!
Shallow embedding of `traefik_fallback_ingressroute/migrator.py`
(class `IngressMigrator`), which converts Kubernetes Ingress objects
into one Traefik v2 IngressRoute plus per-resource stripPrefix
Middleware documents.

Python dictionaries read from the JSON snapshot are modelled as
structures with `Option`-typed fields.  For the scalar fields where the
code distinguishes "key absent" from "key present with value null"
(`host` in a rule, `path` in a path entry, via `dict.get(key, default)`)
the field is `Option PyVal`: `none` means the key is absent and
`some PyVal.vnone` means the key maps to Python `None`.  For fields the
code only reads with a default-less `.get` followed by an `is None`
check, `none` models a `.get` that returned `None`.
-/

namespace TraefikFallback

/-- A scalar Python value occurring in the snapshot: `None`, a string,
or an integer (port numbers).  `pyStr` mirrors Python `str()` /
f-string formatting on these values. -/
inductive PyVal where
  | vnone : PyVal
  | vstr : String → PyVal
  | vint : Int → PyVal
deriving DecidableEq

/-- Python `str()` on a `PyVal`: `str(None) = "None"`. -/
def pyStr : PyVal → String
  | PyVal.vnone => "None"
  | PyVal.vstr s => s
  | PyVal.vint n => toString n

/-- Python `==` between a `PyVal` and a string literal: only a string
value can compare equal to a string. -/
def pyEqStr : PyVal → String → Bool
  | PyVal.vstr t, s => t == s
  | _, _ => false

/-- `backend.service.port`: `.get("number")` and `.get("name")`. -/
structure Port where
  number : Option PyVal
  name : Option PyVal
deriving DecidableEq

/-- `backend.service`: `.get("name")` and `.get("port")`. -/
structure ServiceSpec where
  name : Option PyVal
  port : Option Port
deriving DecidableEq

/-- A path entry's `backend`: `.get("service")`. -/
structure Backend where
  service : Option ServiceSpec
deriving DecidableEq

/-- One entry of `http.paths`: `path` (tri-state: absent / null /
value) and `backend`. -/
structure PathEntry where
  path : Option PyVal
  backend : Option Backend
deriving DecidableEq

/-- A rule's `http` block: `.get("paths")`. -/
structure HttpBlock where
  paths : Option (List PathEntry)
deriving DecidableEq

/-- One entry of `spec.rules`: `host` (tri-state) and `http`. -/
structure LegacyRule where
  host : Option PyVal
  http : Option HttpBlock
deriving DecidableEq

/-- `metadata`: `.get("name")` and `.get("namespace", "default")`. -/
structure Metadata where
  name : Option PyVal
  nspace : Option PyVal
deriving DecidableEq

/-- An ingress item's `spec`: `.get("rules")`. -/
structure ItemSpec where
  rules : Option (List LegacyRule)
deriving DecidableEq

/-- One item of the ingress snapshot. -/
structure Item where
  metadata : Metadata
  spec : ItemSpec
deriving DecidableEq

/-- The service reference dict built by `_get_service_entry`. -/
structure ServiceEntry where
  kind : String
  name : PyVal
  nspace : String
  port : PyVal
deriving DecidableEq

/-- A middleware reference attached to a route. -/
structure MiddlewareRef where
  name : String
  nspace : String
deriving DecidableEq

/-- The route dict built inside `_get_routes`: keys `"match"`,
`"middlewares"` and `"services"` are optional. -/
structure Route where
  kind : String
  matchExpr : Option String
  middlewares : Option (List MiddlewareRef)
  priority : Int
  services : Option (List ServiceEntry)
deriving DecidableEq

/-- The middleware document built by `_get_middleware`
(`spec.stripPrefix.prefixes` flattened into the field `prefixes`). -/
structure MiddlewareDoc where
  apiVersion : String
  kind : String
  name : String
  nspace : String
  prefixes : List PyVal
deriving DecidableEq

/-- The fallback IngressRoute document built by
`get_fallback_ingressroute`. -/
structure IngressRouteDoc where
  apiVersion : String
  kind : String
  name : String
  nspace : String
  entryPoints : List String
  routes : List Route
deriving DecidableEq

/-- Constructor default `fallback_namespace="kube-system"`. -/
def default_fallback_nspace : String := "kube-system"

/-- Constructor default `middleware_namespace="traefik-middleware"`. -/
def default_middleware_nspace : String := "traefik-middleware"

/-- `IngressMigrator._get_service_entry(backend, namespace)`:
`service_entry` stays the empty dict (here `none`) unless `backend`,
`backend["service"]` and `service["port"]` are all present; the port is
`port.get("number")`, falling back to `port.get("name")` when that is
`None`. -/
def get_service_entry (backend : Option Backend) (nspace : String) : Option ServiceEntry :=
  match backend with
  | none => none
  | some b =>
    match b.service with
    | none => none
    | some service =>
      let svc_name : PyVal := service.name.getD PyVal.vnone
      match service.port with
      | none => none
      | some port =>
        let svc_port : PyVal :=
          match port.number.getD PyVal.vnone with
          | PyVal.vnone => port.name.getD PyVal.vnone
          | v => v
        some { kind := "Service", name := svc_name, nspace := nspace, port := svc_port }

/-- The host clause of `_get_rule_match`: `HostRegexp` catch-all for
the `"NO_HOST_KEY"` sentinel, `Host(`<host>`)` otherwise. -/
def host_match_of (host : String) : String :=
  if host == "NO_HOST_KEY" then "HostRegexp(`\x7bdomain:.+\x7d`)"
  else "Host(`" ++ host ++ "`)"

/-- `IngressMigrator._get_rule_match(path, host)`: returns the match
expression and the `need_middleware` flag.  `uri` is
`path.get("path", "NO_PATH_KEY")`. -/
def get_rule_match (path : PathEntry) (host : String) : String × Bool :=
  let uri : PyVal := path.path.getD (PyVal.vstr "NO_PATH_KEY")
  let host_m : String := host_match_of host
  let need_middleware : Bool :=
    if pyEqStr uri "NO_PATH_KEY" then false
    else if pyEqStr uri "/" then false
    else true
  let path_m : String :=
    if pyEqStr uri "NO_PATH_KEY" then ""
    else if pyEqStr uri "/" then "Path(`/`)"
    else "PathPrefix(`" ++ pyStr uri ++ "`)"
  if pyEqStr uri "NO_PATH_KEY" then (host_m, need_middleware)
  else (host_m ++ " && " ++ path_m, need_middleware)

/-- `str(rule.get("host", "NO_HOST_KEY"))` as computed in
`_get_routes` before calling `_get_rule_match`. -/
def host_of_rule (rule : LegacyRule) : String :=
  pyStr (rule.host.getD (PyVal.vstr "NO_HOST_KEY"))

/-- The route dict assembled per path inside `_get_routes`: `"match"`
is set when the match string is truthy (non-empty), `"middlewares"`
when the flag demands it, `"services"` when the service entry is
non-empty. -/
def mk_route (mw_nspace name nspace host : String) (path : PathEntry) (priority : Int) : Route :=
  let rmc : String × Bool := get_rule_match path host
  { kind := "Rule"
  , matchExpr := if rmc.1 ≠ "" then some rmc.1 else none
  , middlewares :=
      if rmc.2 then some [{ name := name ++ "-mw", nspace := mw_nspace }] else none
  , priority := priority
  , services :=
      match get_service_entry path.backend nspace with
      | some e => some [e]
      | none => none }

/-- `IngressMigrator._get_routes(name, namespace, rules, priority=2)`:
rules without an `http` block or without `paths` contribute nothing;
otherwise one route is appended per path entry.  `mw_nspace` stands for
`self.middleware_namespace`. -/
def get_routes (mw_nspace name nspace : String) (rules : List LegacyRule) (priority : Int) : List Route :=
  rules.foldl (fun acc rule =>
    match rule.http with
    | none => acc
    | some http =>
      match http.paths with
      | none => acc
      | some paths =>
        paths.foldl
          (fun acc2 p => acc2 ++ [mk_route mw_nspace name nspace (host_of_rule rule) p priority])
          acc) []

/-- `IngressMigrator._get_middleware(name, rules)`: collects
`uri = path.get("path")` for every path entry whenever `uri != "/"`
(so a missing `path` key contributes Python `None`), then returns the
middleware dict when the prefix list is non-empty and the empty dict
(here `none`) otherwise.  The metadata namespace is the literal
`"kube-system"`. -/
def get_middleware (name : String) (rules : List LegacyRule) : Option MiddlewareDoc :=
  let prefixes : List PyVal := rules.foldl (fun acc rule =>
    match rule.http with
    | none => acc
    | some http =>
      match http.paths with
      | none => acc
      | some paths =>
        paths.foldl
          (fun acc2 p =>
            let uri : PyVal := p.path.getD PyVal.vnone
            if pyEqStr uri "/" then acc2 else acc2 ++ [uri])
          acc) []
  if prefixes ≠ [] then
    some { apiVersion := "traefik.containo.us/v1alpha1", kind := "Middleware"
         , name := name ++ "-mw", nspace := "kube-system", prefixes := prefixes }
  else none

/-- `str(metadata.get("name"))`: a missing key yields Python `None`,
stringified to `"None"`. -/
def str_of_get (o : Option PyVal) : String := pyStr (o.getD PyVal.vnone)

/-- `str(metadata.get("namespace", "default"))`. -/
def str_of_get_default (o : Option PyVal) (d : String) : String :=
  pyStr (o.getD (PyVal.vstr d))

/-- `IngressMigrator.get_fallback_ingressroute` up to serialization:
resources whose `spec.rules` is absent are skipped; per-resource route
lists are accumulated and flattened; the document wraps the flat route
list.  `fallback_nspace` and `mw_nspace` stand for the constructor's
`fallback_namespace` and `middleware_namespace`. -/
def get_fallback_ingressroute (fallback_nspace mw_nspace : String) (items : List Item) : IngressRouteDoc :=
  let route_lists : List (List Route) := items.foldl (fun acc item =>
    match item.spec.rules with
    | none => acc
    | some rules =>
      acc ++ [get_routes mw_nspace (str_of_get item.metadata.name)
                (str_of_get_default item.metadata.nspace "default") rules 2]) []
  let flat_list : List Route := route_lists.flatten
  { apiVersion := "traefik.containo.us/v1alpha1", kind := "IngressRoute"
  , name := "traefik-v1-fallback", nspace := fallback_nspace
  , entryPoints := ["web"], routes := flat_list }

/-- `IngressMigrator.get_all_middlewares` up to serialization: the
sequence of middleware documents handed to the sink, one per resource
with a present `rules` list and a non-empty prefix collection. -/
def get_all_middlewares (items : List Item) : List MiddlewareDoc :=
  items.foldl (fun acc item =>
    match item.spec.rules with
    | none => acc
    | some rules =>
      match get_middleware (str_of_get item.metadata.name) rules with
      | some mw => acc ++ [mw]
      | none => acc) []

/-- The path entries a rule contributes in `_get_routes` /
`_get_middleware`: none when the `http` block or its `paths` list is
absent, the list itself otherwise. -/
def rule_paths (rule : LegacyRule) : List PathEntry :=
  match rule.http with
  | none => []
  | some http => http.paths.getD []

/-!  Shared lemmas about the accumulator loops. -/

theorem foldl_extends {α β : Type} (body : List β → α → List β) (f : α → List β)
    (hbody : ∀ acc x, body acc x = acc ++ f x) :
    ∀ (l : List α) (acc : List β), l.foldl body acc = acc ++ l.flatMap f := by
  intro l
  induction l with
  | nil => intro acc; simp
  | cons x xs ih =>
    intro acc
    rw [List.foldl_cons, hbody, ih, List.flatMap_cons, List.append_assoc]

theorem flatMap_singleton_eq_map {α β : Type} (m : α → β) (l : List α) :
    (l.flatMap fun x => [m x]) = l.map m := by
  induction l with
  | nil => rfl
  | cons x xs ih => rw [List.flatMap_cons, ih]; rfl

theorem get_routes_eq (mw n ns : String) (rules : List LegacyRule) (pr : Int) :
    get_routes mw n ns rules pr =
      rules.flatMap (fun rule => (rule_paths rule).map
        (fun p => mk_route mw n ns (host_of_rule rule) p pr)) := by
  unfold get_routes
  rw [foldl_extends _ (fun rule => (rule_paths rule).map
        (fun p => mk_route mw n ns (host_of_rule rule) p pr))]
  · simp
  · intro acc rule
    cases hh : rule.http with
    | none => simp [rule_paths, hh]
    | some http =>
      cases hp : http.paths with
      | none => simp [rule_paths, hh, hp]
      | some paths =>
        simp only [rule_paths, hh, hp, Option.getD_some]
        rw [foldl_extends _ (fun p => [mk_route mw n ns (host_of_rule rule) p pr])
            (fun _ _ => rfl), flatMap_singleton_eq_map]

theorem get_fallback_routes_eq (fb mw : String) (items : List Item) :
    (get_fallback_ingressroute fb mw items).routes =
      items.flatMap (fun item =>
        match item.spec.rules with
        | none => []
        | some rules =>
          get_routes mw (str_of_get item.metadata.name)
            (str_of_get_default item.metadata.nspace "default") rules 2) := by
  unfold get_fallback_ingressroute
  simp only
  rw [foldl_extends _ (fun item =>
        match item.spec.rules with
        | none => []
        | some rules =>
          [get_routes mw (str_of_get item.metadata.name)
            (str_of_get_default item.metadata.nspace "default") rules 2])]
  · rw [List.nil_append]
    induction items with
    | nil => rfl
    | cons item rest ih =>
      rw [List.flatMap_cons, List.flatMap_cons, List.flatten_append, ih]
      cases item.spec.rules <;> simp
  · intro acc item
    cases h : item.spec.rules <;> simp [h]

theorem get_all_middlewares_eq (items : List Item) :
    get_all_middlewares items =
      items.flatMap (fun item =>
        match item.spec.rules with
        | none => []
        | some rules =>
          (get_middleware (str_of_get item.metadata.name) rules).toList) := by
  unfold get_all_middlewares
  rw [foldl_extends _ (fun item =>
        match item.spec.rules with
        | none => []
        | some rules =>
          (get_middleware (str_of_get item.metadata.name) rules).toList)]
  · simp
  · intro acc item
    cases h : item.spec.rules with
    | none => simp [h]
    | some rules =>
      cases hm : get_middleware (str_of_get item.metadata.name) rules <;>
        simp [h, hm]

theorem pyEqStr_eq_true_iff (v : PyVal) (s : String) :
    pyEqStr v s = true ↔ v = PyVal.vstr s := by
  cases v <;> simp [pyEqStr]

theorem string_append_ne_empty_left (a b : String) (h : a ≠ "") : a ++ b ≠ "" := by
  intro he
  apply h
  have hlen := congrArg String.length he
  rw [String.length_append] at hlen
  have h0 : ("" : String).length = 0 := rfl
  rw [h0] at hlen
  have ha : a.length = 0 := by omega
  cases a with
  | mk data =>
    cases data with
    | nil => rfl
    | cons c cs => simp [String.length] at ha

theorem host_match_of_ne_empty (host : String) : host_match_of host ≠ "" := by
  unfold host_match_of
  split
  · decide
  · intro he
    have hlen := congrArg String.length he
    rw [String.length_append, String.length_append] at hlen
    have h1 : ("Host(`" : String).length = 6 := rfl
    have h2 : ("`)" : String).length = 2 := rfl
    have h0 : ("" : String).length = 0 := rfl
    rw [h1, h2, h0] at hlen
    omega

theorem get_rule_match_fst_ne_empty (path : PathEntry) (host : String) :
    (get_rule_match path host).1 ≠ "" := by
  unfold get_rule_match
  by_cases h1 : pyEqStr (path.path.getD (PyVal.vstr "NO_PATH_KEY")) "NO_PATH_KEY"
  · simpa [h1] using host_match_of_ne_empty host
  · simp only [h1, if_false, Bool.false_eq_true]
    exact string_append_ne_empty_left _ _
      (string_append_ne_empty_left _ _ (host_match_of_ne_empty host))

theorem mk_route_matchExpr (mw n ns host : String) (path : PathEntry) (pr : Int) :
    (mk_route mw n ns host path pr).matchExpr = some (get_rule_match path host).1 := by
  simp [mk_route, get_rule_match_fst_ne_empty path host]

theorem mk_route_priority (mw n ns host : String) (path : PathEntry) (pr : Int) :
    (mk_route mw n ns host path pr).priority = pr := rfl

/-- C1 (evaluation at the failing input): a path entry that omits the
`path` key is NOT excluded by `_get_middleware`: the collected Python
`None` lands in the prefix list, so a middleware document with the
single prefix `None` is produced instead of no document. -/
theorem c1_missing_path_key_collected :
    get_middleware "app1" [⟨none, some ⟨some [⟨none, none⟩]⟩⟩] =
      some ⟨"traefik.containo.us/v1alpha1", "Middleware", "app1-mw", "kube-system",
            [PyVal.vnone]⟩ := by
  decide

/-- C2: the `need_middleware` flag returned by `_get_rule_match` is
true exactly when the path value `uri = path.get("path", "NO_PATH_KEY")`
is neither the no-path sentinel nor the root path `"/"`. -/
theorem c2_middleware_required_iff (path : PathEntry) (host : String) :
    (get_rule_match path host).2 = true ↔
      (path.path.getD (PyVal.vstr "NO_PATH_KEY") ≠ PyVal.vstr "NO_PATH_KEY" ∧
       path.path.getD (PyVal.vstr "NO_PATH_KEY") ≠ PyVal.vstr "/") := by
  unfold get_rule_match
  by_cases h1 : pyEqStr (path.path.getD (PyVal.vstr "NO_PATH_KEY")) "NO_PATH_KEY"
  · rw [pyEqStr_eq_true_iff] at h1
    simp [h1, pyEqStr]
  · by_cases h2 : pyEqStr (path.path.getD (PyVal.vstr "NO_PATH_KEY")) "/"
    · rw [pyEqStr_eq_true_iff] at h2
      simp [h2, pyEqStr]
    · have h1' := h1
      have h2' := h2
      rw [pyEqStr_eq_true_iff] at h1' h2'
      simp [h1, h2, h1', h2']

/-- C3: the host clause of `_get_rule_match` is the catch-all
`HostRegexp` exactly for the `"NO_HOST_KEY"` sentinel and
`Host(`<host>`)` otherwise; the full match expression is the host
clause alone for the no-path sentinel, host clause plus `Path(`/`)` for
the root path, and host clause plus `PathPrefix(`<path>`)` for any
other path value. -/
theorem c3_match_expression_shape (path : PathEntry) (host : String) :
    (host_match_of host =
      if host = "NO_HOST_KEY" then "HostRegexp(`\x7bdomain:.+\x7d`)"
      else "Host(`" ++ host ++ "`)") ∧
    ((get_rule_match path host).1 =
      if path.path.getD (PyVal.vstr "NO_PATH_KEY") = PyVal.vstr "NO_PATH_KEY" then
        host_match_of host
      else if path.path.getD (PyVal.vstr "NO_PATH_KEY") = PyVal.vstr "/" then
        host_match_of host ++ " && Path(`/`)"
      else
        host_match_of host ++ " && PathPrefix(`" ++
          pyStr (path.path.getD (PyVal.vstr "NO_PATH_KEY")) ++ "`)") := by
  constructor
  · unfold host_match_of
    by_cases h : host = "NO_HOST_KEY" <;> simp [h]
  · unfold get_rule_match
    by_cases h1 : pyEqStr (path.path.getD (PyVal.vstr "NO_PATH_KEY")) "NO_PATH_KEY"
    · have h1' := h1
      rw [pyEqStr_eq_true_iff] at h1'
      simp [h1, h1', pyEqStr]
    · have h1' := h1
      rw [pyEqStr_eq_true_iff] at h1'
      by_cases h2 : pyEqStr (path.path.getD (PyVal.vstr "NO_PATH_KEY")) "/"
      · have h2' := h2
        rw [pyEqStr_eq_true_iff] at h2'
        simp [h1, h2, h1', h2', pyEqStr, String.append_assoc]
      · have h2' := h2
        rw [pyEqStr_eq_true_iff] at h2'
        simp only [h1, h2, h1', h2', if_false, Bool.false_eq_true,
          String.append_assoc]
        congr 1

/-- C4 (evaluation at the failing input): under the constructor's
default configuration the middleware document emitted for a resource
with the non-root path `/api` carries metadata namespace
`"kube-system"` (hardcoded in `_get_middleware`), while the route's
middleware reference uses the configured middleware namespace
(default `"traefik-middleware"`) — the two disagree. -/
theorem c4_middleware_nspace_hardcoded :
    (get_all_middlewares
        [⟨⟨some (PyVal.vstr "app1"), some (PyVal.vstr "ns1")⟩,
          ⟨some [⟨some (PyVal.vstr "a.example.com"),
                  some ⟨some [⟨some (PyVal.vstr "/api"), none⟩]⟩⟩]⟩⟩]).map
        MiddlewareDoc.nspace = ["kube-system"] ∧
    (get_fallback_ingressroute default_fallback_nspace default_middleware_nspace
        [⟨⟨some (PyVal.vstr "app1"), some (PyVal.vstr "ns1")⟩,
          ⟨some [⟨some (PyVal.vstr "a.example.com"),
                  some ⟨some [⟨some (PyVal.vstr "/api"), none⟩]⟩⟩]⟩⟩]).routes.map
        Route.middlewares =
      [some [⟨"app1-mw", default_middleware_nspace⟩]] ∧
    default_middleware_nspace ≠ "kube-system" := by
  refine ⟨by decide, by decide, by decide⟩

/-- C10: when a rule's `host` key is present but maps to null, the
Route Builder stringifies it to `"None"` and the host clause becomes
`Host(`None`)`, not the catch-all; the catch-all clause arises exactly
from an absent `host` key (the sentinel default). -/
theorem c10_null_host_stringified (r : LegacyRule) (h : r.host = some PyVal.vnone) :
    host_match_of (host_of_rule r) = "Host(`None`)" ∧
    host_match_of (host_of_rule r) ≠ "HostRegexp(`\x7bdomain:.+\x7d`)" ∧
    (∀ r2 : LegacyRule, r2.host = none →
      host_match_of (host_of_rule r2) = "HostRegexp(`\x7bdomain:.+\x7d`)") := by
  have hh : host_of_rule r = "None" := by rw [host_of_rule, h]; rfl
  refine ⟨?_, ?_, ?_⟩
  · rw [hh]; decide
  · rw [hh]; decide
  · intro r2 h2
    rw [host_of_rule, h2]
    decide

/-- C10 witness: a concrete rule with `host: null`. -/
theorem c10_null_host_stringified_witness :
    host_match_of (host_of_rule ⟨some PyVal.vnone, none⟩) = "Host(`None`)" :=
  (c10_null_host_stringified ⟨some PyVal.vnone, none⟩ rfl).1

/-- C5: the consolidated route list is exactly one `mk_route` per
(resource, rule, path) triple in input order — resources in snapshot
order, rules in rule order, paths in path order, no reordering or
deduplication — and hence its length is the sum over resources with a
present `rules` list of the number of (rule, path) pairs, where rules
without an `http` block (or without `paths`) contribute zero. -/
theorem c5_route_flattening (fb mw : String) (items : List Item) :
    ((get_fallback_ingressroute fb mw items).routes =
      items.flatMap (fun item =>
        match item.spec.rules with
        | none => []
        | some rules =>
          rules.flatMap (fun rule => (rule_paths rule).map
            (fun p => mk_route mw (str_of_get item.metadata.name)
              (str_of_get_default item.metadata.nspace "default")
              (host_of_rule rule) p 2)))) ∧
    ((get_fallback_ingressroute fb mw items).routes.length =
      (items.map (fun item =>
        match item.spec.rules with
        | none => 0
        | some rules =>
          (rules.map (fun rule => (rule_paths rule).length)).sum)).sum) := by
  have hflat : (get_fallback_ingressroute fb mw items).routes =
      items.flatMap (fun item =>
        match item.spec.rules with
        | none => []
        | some rules =>
          rules.flatMap (fun rule => (rule_paths rule).map
            (fun p => mk_route mw (str_of_get item.metadata.name)
              (str_of_get_default item.metadata.nspace "default")
              (host_of_rule rule) p 2))) := by
    rw [get_fallback_routes_eq]
    congr 1
    funext item
    cases item.spec.rules <;> simp [get_routes_eq]
  refine ⟨hflat, ?_⟩
  rw [hflat, List.length_flatMap]
  apply congrArg List.sum
  apply List.map_congr_left
  intro item _
  simp only [Function.comp_apply]
  cases item.spec.rules with
  | none => simp
  | some rules =>
    simp only [List.length_flatMap]
    apply congrArg List.sum
    apply List.map_congr_left
    intro rule _
    simp [List.length_map]

/-- C6: `_get_service_entry` returns the empty reference exactly when
the backend, its `service` sub-object, or the service's `port`
sub-object is absent (all-or-nothing, no partial reference); when all
three are present it returns kind `"Service"`, the service name, the
caller's namespace, and the numeric port if present, else the named
port. -/
theorem c6_service_entry_all_or_nothing (backend : Option Backend) (ns : String) :
    (get_service_entry backend ns = none ↔
      (backend = none ∨ (∃ b, backend = some b ∧ b.service = none) ∨
       (∃ b s, backend = some b ∧ b.service = some s ∧ s.port = none))) ∧
    (∀ b s p, backend = some b → b.service = some s → s.port = some p →
      get_service_entry backend ns =
        some { kind := "Service", name := s.name.getD PyVal.vnone, nspace := ns,
               port := if p.number.getD PyVal.vnone = PyVal.vnone
                       then p.name.getD PyVal.vnone
                       else p.number.getD PyVal.vnone }) := by
  constructor
  · rcases backend with _ | b
    · simp [get_service_entry]
    · rcases hs : b.service with _ | s
      · simp [get_service_entry, hs]
      · rcases hp : s.port with _ | p
        · simp [get_service_entry, hs, hp]
        · simp [get_service_entry, hs, hp]
  · rintro b s p rfl hsv hpt
    simp only [get_service_entry, hsv, hpt]
    cases hn : p.number.getD PyVal.vnone <;> simp [hn]

/-- C6 witness: a fully-present backend with a numeric port. -/
theorem c6_service_entry_all_or_nothing_witness :
    get_service_entry
        (some ⟨some ⟨some (PyVal.vstr "svc1"), some ⟨some (PyVal.vint 8080), none⟩⟩⟩)
        "ns1" =
      some ⟨"Service", PyVal.vstr "svc1", "ns1", PyVal.vint 8080⟩ := by
  have h := (c6_service_entry_all_or_nothing
      (some ⟨some ⟨some (PyVal.vstr "svc1"), some ⟨some (PyVal.vint 8080), none⟩⟩⟩)
      "ns1").2
    ⟨some ⟨some (PyVal.vstr "svc1"), some ⟨some (PyVal.vint 8080), none⟩⟩⟩
    ⟨some (PyVal.vstr "svc1"), some ⟨some (PyVal.vint 8080), none⟩⟩
    ⟨some (PyVal.vint 8080), none⟩ rfl rfl rfl
  exact h.trans (by decide)

/-- C7: every route in the consolidated document carries the fixed
priority 2 — `_get_routes` is only ever invoked with its default
priority and assigns it to every generated route. -/
theorem c7_priority_always_two (fb mw : String) (items : List Item) (r : Route)
    (hr : r ∈ (get_fallback_ingressroute fb mw items).routes) : r.priority = 2 := by
  rw [get_fallback_routes_eq, List.mem_flatMap] at hr
  obtain ⟨item, hitem, hr2⟩ := hr
  rcases h : item.spec.rules with _ | rules
  · simp [h] at hr2
  · simp only [h] at hr2
    rw [get_routes_eq, List.mem_flatMap] at hr2
    obtain ⟨rule, hrule, hr3⟩ := hr2
    rw [List.mem_map] at hr3
    obtain ⟨p, hp, hmk⟩ := hr3
    rw [← hmk]
    rfl

/-- C7 witness: one concrete snapshot item with one rule and one path. -/
theorem c7_priority_always_two_witness :
    (mk_route "traefik-middleware" "app1" "ns1" "a.example.com"
        ⟨some (PyVal.vstr "/api"), none⟩ 2).priority = 2 :=
  c7_priority_always_two "kube-system" "traefik-middleware"
    [⟨⟨some (PyVal.vstr "app1"), some (PyVal.vstr "ns1")⟩,
      ⟨some [⟨some (PyVal.vstr "a.example.com"),
              some ⟨some [⟨some (PyVal.vstr "/api"), none⟩]⟩⟩]⟩⟩]
    _ (by decide)

/-- C8: an item whose `spec.rules` is absent contributes zero routes to
the consolidated document and zero middleware documents, with no other
effect on the outputs (it is skipped silently). -/
theorem c8_absent_rules_skipped (fb mw : String) (pre post : List Item) (item : Item)
    (h : item.spec.rules = none) :
    (get_fallback_ingressroute fb mw (pre ++ item :: post)).routes =
      (get_fallback_ingressroute fb mw (pre ++ post)).routes ∧
    get_all_middlewares (pre ++ item :: post) = get_all_middlewares (pre ++ post) := by
  constructor
  · rw [get_fallback_routes_eq, get_fallback_routes_eq]
    simp only [List.flatMap_append, List.flatMap_cons, h, List.nil_append]
  · rw [get_all_middlewares_eq, get_all_middlewares_eq]
    simp only [List.flatMap_append, List.flatMap_cons, h, List.nil_append]

/-- C8 witness: a single item with no `rules` key yields the same
outputs as the empty snapshot. -/
theorem c8_absent_rules_skipped_witness :
    (get_fallback_ingressroute "kube-system" "traefik-middleware"
        [⟨⟨none, none⟩, ⟨none⟩⟩]).routes =
      (get_fallback_ingressroute "kube-system" "traefik-middleware" []).routes ∧
    get_all_middlewares [⟨⟨none, none⟩, ⟨none⟩⟩] = get_all_middlewares [] :=
  c8_absent_rules_skipped "kube-system" "traefik-middleware" [] [] ⟨⟨none, none⟩, ⟨none⟩⟩ rfl

/-- C9: every route generated by `_get_routes` carries a `match` key
whose value is non-empty — the host clause is never empty (an absent
host defaults to the catch-all), so the match expression is always
set. -/
theorem c9_match_present_nonempty (mw n ns : String) (rules : List LegacyRule)
    (pr : Int) (r : Route) (hr : r ∈ get_routes mw n ns rules pr) :
    ∃ m, r.matchExpr = some m ∧ m ≠ "" := by
  rw [get_routes_eq, List.mem_flatMap] at hr
  obtain ⟨rule, hrule, hr2⟩ := hr
  rw [List.mem_map] at hr2
  obtain ⟨p, hp, hmk⟩ := hr2
  refine ⟨(get_rule_match p (host_of_rule rule)).1, ?_,
    get_rule_match_fst_ne_empty p (host_of_rule rule)⟩
  rw [← hmk, mk_route_matchExpr]

/-- C9 witness: a concrete rule with a host and the root path. -/
theorem c9_match_present_nonempty_witness :
    ∃ m, (mk_route "traefik-middleware" "app1" "ns1" "a.example.com"
        ⟨some (PyVal.vstr "/"), none⟩ 2).matchExpr = some m ∧ m ≠ "" :=
  c9_match_present_nonempty "traefik-middleware" "app1" "ns1"
    [⟨some (PyVal.vstr "a.example.com"),
      some ⟨some [⟨some (PyVal.vstr "/"), none⟩]⟩⟩] 2 _ (by decide)

end TraefikFallback
